import Mathlib

/-!
Verification development for the connector-execution and workflow-orchestration
engine of the Neon-Agent repository (`src/services/MCPIntegrationHub.ts`).

The TypeScript source is shallowly embedded: JSON values become an inductive
`JValue`, the JS `Map`s become association lists, and every external effect
(HTTP responses, process execution, filesystem results, dynamic condition
evaluation) is supplied by an explicit oracle value, so that each embedded
function is a pure, executable Lean function that mirrors the control flow of
the corresponding TypeScript function line by line.
-/

set_option autoImplicit false

/-- JSON values, used for connector params, envelope data and workflow
variables (the TS code passes `any`-typed JSON-like data in these positions). -/
inductive JValue where
  | jnull
  | jbool (b : Bool)
  | jnum (n : Int)
  | jstr (s : String)
  | jarr (xs : List JValue)
  | jobj (fields : List (String × JValue))

/-- Lookup of an object field in a JSON object field list (first match wins,
like JS property access on the embedded objects). -/
def jfieldGet (fs : List (String × JValue)) (k : String) : Option JValue :=
  match fs with
  | [] => none
  | (k', v) :: rest => if k' = k then some v else jfieldGet rest k

/-- JS property access `v.k` for the embedded JSON values: `undefined` (none)
on non-objects and missing keys. -/
def JValue.getField (v : JValue) (k : String) : Option JValue :=
  match v with
  | .jobj fs => jfieldGet fs k
  | _ => none

/-- Keys of a JSON object, in insertion order. -/
def JValue.keys (v : JValue) : List String :=
  match v with
  | .jobj fs => fs.map (fun p => p.1)
  | _ => []

/-- Minimal JSON string escaping (quote and backslash), as performed by
`JSON.stringify` on the strings appearing in this development. -/
def jsonEscChar (c : Char) : String :=
  if c = '"' then "\\\"" else if c = '\\' then "\\\\" else String.singleton c

/-- A JSON string literal: quotes around the escaped contents. -/
def jsonQuote (s : String) : String :=
  "\"" ++ String.join (s.data.map jsonEscChar) ++ "\""

mutual

/-- `JSON.stringify` on the embedded JSON values.  Object fields are emitted
in insertion order, exactly as `JSON.stringify` does for non-integer-like
string keys — this order sensitivity is what claim C4 is about. -/
def JValue.stringify : JValue → String
  | .jnull => "null"
  | .jbool b => cond b "true" "false"
  | .jnum n => toString n
  | .jstr s => jsonQuote s
  | .jarr xs => "[" ++ JValue.stringifyList xs ++ "]"
  | .jobj fs => "\x7b" ++ JValue.stringifyFields fs ++ "\x7d"

/-- Comma-separated serialization of a JSON array body. -/
def JValue.stringifyList : List JValue → String
  | [] => ""
  | [x] => JValue.stringify x
  | x :: xs => JValue.stringify x ++ "," ++ JValue.stringifyList xs

/-- Comma-separated serialization of a JSON object body. -/
def JValue.stringifyFields : List (String × JValue) → String
  | [] => ""
  | [(k, v)] => jsonQuote k ++ ":" ++ JValue.stringify v
  | (k, v) :: fs => jsonQuote k ++ ":" ++ JValue.stringify v ++ "," ++ JValue.stringifyFields fs

end

/-- Lookup in an association list modelling a JS `Map` (`Map.get`). -/
def mapGet {α : Type} (m : List (String × α)) (k : String) : Option α :=
  match m with
  | [] => none
  | (k', v) :: rest => if k' = k then some v else mapGet rest k

/-- Insert-or-replace in an association list, modelling `Map.set` and JS
object property assignment (`obj[k] = v`): replaces in place, appends new
keys at the end. -/
def mapSet {α : Type} (m : List (String × α)) (k : String) (v : α) : List (String × α) :=
  match m with
  | [] => [(k, v)]
  | (k', v') :: rest => if k' = k then (k, v) :: rest else (k', v') :: mapSet rest k v

/-- JS template interpolation of a possibly-undefined string
(an `undefined` value prints as the text "undefined"). -/
def jsShow : Option String → String
  | some s => s
  | none => "undefined"

/-- JS `x || d` for a possibly-undefined string: both `undefined` and the
empty string are falsy. -/
def jsOrStr (x : Option String) (d : String) : String :=
  match x with
  | some s => if s = "" then d else s
  | none => d

/-- JS truthiness of a possibly-undefined number (`undefined` and `0` are
falsy), used for `res.statusCode ? … : …`. -/
def jsTruthyNat : Option Nat → Bool
  | none => false
  | some n => n != 0

/-- Read a string-valued field of a params object, with JS string coercion of
missing values collapsed to the empty string (sufficient for the string
positions used here: `params.path`, `params.args`, …). -/
def jsFieldStr (p : JValue) (k : String) : String :=
  match p.getField k with
  | some (.jstr s) => s
  | _ => ""

/-- Read a string-valued field of a params object as an optional string. -/
def jsFieldStrOpt (p : JValue) (k : String) : Option String :=
  match p.getField k with
  | some (.jstr s) => some s
  | _ => none

/-- Whitespace characters removed by JS `String.prototype.trim` (restricted to
the ASCII whitespace relevant to process output). -/
def jsIsSpace (c : Char) : Bool :=
  c = ' ' || c = '\n' || c = '\t' || c = '\r'

/-- JS `s.trim()`: drop leading and trailing whitespace. -/
def jsTrim (s : String) : String :=
  String.mk (((s.data.dropWhile jsIsSpace).reverse.dropWhile jsIsSpace).reverse)

/-- Connector protocol type (`MCPConnector.type` in the source). -/
inductive ConnectorType where
  | api | cli | file | database | webhook
  deriving DecidableEq

/-- Authentication strategy tag (`authentication.type` in the source). -/
inductive AuthType where
  | bearer | basic | apikey | oauth
  deriving DecidableEq

/-- The `authentication` record of a connector config. -/
structure Authentication where
  authType : AuthType
  credentials : List (String × String)
  deriving DecidableEq

/-- `MCPConnectorConfig` from the source. -/
structure MCPConnectorConfig where
  endpoint : Option String := none
  apiKey : Option String := none
  command : Option String := none
  filePath : Option String := none
  connectionString : Option String := none
  webhookUrl : Option String := none
  headers : Option (List (String × String)) := none
  timeout : Option Nat := none
  retries : Option Nat := none
  authentication : Option Authentication := none
  deriving DecidableEq

/-- `MCPConnector` from the source (`type` is renamed `ctype`, a Lean
keyword). -/
structure MCPConnector where
  id : String
  name : String
  description : String
  ctype : ConnectorType
  config : MCPConnectorConfig
  enabled : Bool
  priority : Int
  deriving DecidableEq

/-- `MCPResponse` from the source: the uniform response envelope. -/
structure MCPResponse where
  success : Bool
  data : Option JValue := none
  error : Option String := none
  metadata : Option JValue := none
  cached : Option Bool := none
  duration : Option Nat := none

/-- Field access into an envelope's `data` object. -/
def MCPResponse.dataField (r : MCPResponse) (k : String) : Option JValue :=
  match r.data with
  | some d => d.getField k
  | none => none

/-- One entry of the `responseCache` map: `{ response, timestamp }`. -/
structure CacheEntry where
  response : MCPResponse
  timestamp : Nat

/-- Base64 alphabet used by `Buffer.toString('base64')`. -/
def base64Chars : List Char :=
  "ABCDEFGHIJKLMNOPQRSTUVWXYZabcdefghijklmnopqrstuvwxyz0123456789+/".data

/-- One base64 digit. -/
def base64Digit (n : Nat) : String :=
  String.singleton (base64Chars.getD n 'A')

/-- Base64 encoding of a byte list, with padding. -/
def base64EncodeBytes : List Nat → String
  | [] => ""
  | [a] =>
      base64Digit (a / 4) ++ base64Digit (a % 4 * 16) ++ "=="
  | [a, b] =>
      base64Digit (a / 4) ++ base64Digit (a % 4 * 16 + b / 16) ++
        base64Digit (b % 16 * 4) ++ "="
  | a :: b :: c :: rest =>
      base64Digit (a / 4) ++ base64Digit (a % 4 * 16 + b / 16) ++
        base64Digit (b % 16 * 4 + c / 64) ++ base64Digit (c % 64) ++
        base64EncodeBytes rest

/-- `Buffer.from(s).toString('base64')`. -/
def base64Encode (s : String) : String :=
  base64EncodeBytes (s.toUTF8.toList.map (fun b => b.toNat))

/-- `addAuthentication` from the source: mutates the header map according to
the authentication strategy (no case for `oauth`, which therefore leaves the
headers untouched).  The JS function mutates its argument in place; the
embedding returns the updated map. -/
def addAuthentication (headers : List (String × String)) (auth : Authentication) :
    List (String × String) :=
  match auth.authType with
  | .bearer =>
      mapSet headers "Authorization" ("Bearer " ++ jsShow (mapGet auth.credentials "token"))
  | .basic =>
      mapSet headers "Authorization"
        ("Basic " ++ base64Encode
          (jsShow (mapGet auth.credentials "username") ++ ":" ++
            jsShow (mapGet auth.credentials "password")))
  | .apikey =>
      mapSet headers (jsOrStr (mapGet auth.credentials "header") "X-API-Key")
        (jsShow (mapGet auth.credentials "key"))
  | .oauth => headers

/-- Outcome of the HTTP request performed by the api strategy, supplied by the
environment: URL-constructor failure, the timeout timer firing, a request
error event, or a completed response (`parsed` is `JSON.parse`'s view of the
body: `some` if the body parses, `none` if parsing threw). -/
inductive HttpOutcome where
  | invalidUrl (msg : String)
  | timedOut
  | reqError (msg : String)
  | response (statusCode : Option Nat) (statusMessage : String) (body : String)
      (parsed : Option JValue) (respHeaders : List (String × String))

/-- Outcome of `execAsync` in the cli strategy: resolution with stdout/stderr,
or rejection with an error object carrying `message` and optional partial
`stdout`/`stderr`. -/
inductive CliOutcome where
  | ok (stdout stderr : String)
  | err (message : String) (stdout stderr : Option String)

/-- Filesystem results consumed by the file strategy, per operation. -/
structure StatInfo where
  size : Nat
  mtime : Int
  isFile : Bool
  isDirectory : Bool

/-- Oracle for the `fs.promises` operations used by the file strategy. -/
structure FsOracle where
  readFile : String → Except String String
  writeFile : String → String → Except String Unit
  appendFile : String → String → Except String Unit
  accessOk : String → Bool
  stat : String → Except String StatInfo

/-- Outcome of the POST performed by the webhook strategy. -/
inductive WebhookOutcome where
  | invalidUrl (msg : String)
  | timedOut
  | reqError (msg : String)
  | response (statusCode : Option Nat) (statusMessage : String) (body : String)

/-- `res.statusCode ? res.statusCode < 400 : false` from the source: the
success test on a completed HTTP response.  An absent or zero status code is
falsy, so the whole expression is `false`. -/
def statusSuccess (sc : Option Nat) : Bool :=
  match sc with
  | some n => if n = 0 then false else decide (n < 400)
  | none => false

/-- `res.statusCode && res.statusCode >= 400` from the source: the test
guarding the `error` field of a completed HTTP response. -/
def statusFailed (sc : Option Nat) : Bool :=
  match sc with
  | some n => if n = 0 then false else decide (400 ≤ n)
  | none => false

/-- Display of a status code inside an error message (only reached when the
code is present). -/
def statusShow (sc : Option Nat) : String :=
  match sc with
  | some n => toString n
  | none => "undefined"

/-- The envelope built by the api strategy's network phase (timeout timer,
request error handler, and the `res.on('end')` handler with its
`JSON.parse` fallback). -/
def apiHttpResponse (o : HttpOutcome) : MCPResponse :=
  match o with
  | .invalidUrl m => { success := false, error := some ("API request failed: " ++ m) }
  | .timedOut => { success := false, error := some "Request timeout" }
  | .reqError m => { success := false, error := some ("API request failed: " ++ m) }
  | .response sc sm body parsed respHeaders =>
      { success := statusSuccess sc
        data := some (match parsed with | some j => j | none => .jstr body)
        error := if statusFailed sc
          then some ("HTTP " ++ statusShow sc ++ ": " ++ sm) else none
        metadata := some (.jobj
          [("status", match sc with | some n => .jnum n | none => .jnull),
           ("headers", .jobj (respHeaders.map (fun p => (p.1, JValue.jstr p.2))))] ) }

/-- `executeAPIConnector` from the source.  Crucially, the destructuring
`const { headers = {} } = connector.config` makes the local `headers` object
an alias of `connector.config.headers` whenever that field is present, so
the header writes by `addAuthentication` and the `Content-Type` assignment
for post/put persist into the stored connector definition; the returned
connector reflects that mutation. -/
def executeAPIConnector (c : MCPConnector) (action : String) (params : JValue)
    (o : HttpOutcome) : MCPResponse × MCPConnector :=
  let cfg := c.config
  let endpoint := jsOrStr cfg.endpoint ""
  let headers0 := cfg.headers.getD []
  let headers1 := match cfg.authentication with
    | some a => addAuthentication headers0 a
    | none => headers0
  let url := endpoint ++ jsFieldStr params "path"
  let headersFinal :=
    if action = "post" ∨ action = "put"
    then mapSet headers1 "Content-Type" "application/json"
    else headers1
  let storedConnector :=
    if cfg.headers.isSome
    then { c with config := { cfg with headers := some headersFinal } }
    else c
  let _ := url
  if action = "get" ∨ action = "post" ∨ action = "put" ∨ action = "delete" then
    (apiHttpResponse o, storedConnector)
  else
    ({ success := false, error := some ("Unsupported API action: " ++ action) },
      storedConnector)

/-- `executeCLIConnector` from the source.  On resolution the captured
stdout/stderr are trimmed (`stdout.trim()`); on rejection the partial
stdout/stderr from the error object are used verbatim with `|| ''`
defaulting. -/
def executeCLIConnector (c : MCPConnector) (action : String) (params : JValue)
    (o : CliOutcome) : MCPResponse :=
  let command := jsOrStr c.config.command ""
  let fullCommand :=
    match action with
    | "run" => command ++ " " ++ jsFieldStr params "args"
    | "version" => command ++ " --version"
    | _ => command ++ " " ++ action ++ " " ++ jsFieldStr params "args"
  let _ := fullCommand
  match o with
  | .ok stdout stderr =>
      { success := true
        data := some (.jobj [("stdout", .jstr (jsTrim stdout)),
                             ("stderr", .jstr (jsTrim stderr))]) }
  | .err message stdout stderr =>
      { success := false
        error := some ("CLI execution failed: " ++ message)
        data := some (.jobj [("stdout", .jstr (stdout.getD "")),
                             ("stderr", .jstr (stderr.getD ""))]) }

/-- `executeFileConnector` from the source: `read`/`write`/`append`/`exists`/
`stat` against `params.path || filePath`, unsupported actions are hard
errors, and any filesystem rejection is caught into a failed envelope. -/
def filePathOf (c : MCPConnector) (params : JValue) : String :=
  jsOrStr (jsFieldStrOpt params "path") (jsShow c.config.filePath)

def executeFileConnector (c : MCPConnector) (action : String) (params : JValue)
    (o : FsOracle) : MCPResponse :=
  let path := filePathOf c params
  match action with
  | "read" =>
      match o.readFile path with
      | .ok content =>
          { success := true, data := some (.jobj [("content", .jstr content)]) }
      | .error e =>
          { success := false, error := some ("File operation failed: " ++ e) }
  | "write" =>
      match o.writeFile path (jsFieldStr params "content") with
      | .ok _ =>
          { success := true, data := some (.jobj [("success", .jbool true)]) }
      | .error e =>
          { success := false, error := some ("File operation failed: " ++ e) }
  | "append" =>
      match o.appendFile path (jsFieldStr params "content") with
      | .ok _ =>
          { success := true, data := some (.jobj [("success", .jbool true)]) }
      | .error e =>
          { success := false, error := some ("File operation failed: " ++ e) }
  | "exists" =>
      { success := true, data := some (.jobj [("exists", .jbool (o.accessOk path))]) }
  | "stat" =>
      match o.stat path with
      | .ok st =>
          { success := true
            data := some (.jobj [("size", .jnum st.size), ("mtime", .jnum st.mtime),
                                 ("isFile", .jbool st.isFile),
                                 ("isDirectory", .jbool st.isDirectory)]) }
      | .error e =>
          { success := false, error := some ("File operation failed: " ++ e) }
  | _ =>
      { success := false, error := some ("Unsupported file action: " ++ action) }

/-- `executeDatabaseConnector` from the source: a pure stub with a stable
result shape for `query` and `schema`. -/
def executeDatabaseConnector (c : MCPConnector) (action : String) (params : JValue) :
    MCPResponse :=
  let _ := c.config.connectionString
  match action with
  | "query" =>
      { success := true
        data := some (.jobj [("rows", .jarr []), ("rowCount", .jnum 0),
                             ("query", .jstr (jsFieldStr params "sql"))]) }
  | "schema" =>
      { success := true
        data := some (.jobj [("tables", .jarr [.jstr "users", .jstr "projects", .jstr "tasks"]),
                             ("version", .jstr "1.0.0")]) }
  | _ =>
      { success := false, error := some ("Unsupported database action: " ++ action) }

/-- `executeWebhookConnector` from the source: POSTs to the configured URL;
the response envelope mirrors the api strategy's status handling but keeps
the raw body as `data`. -/
def executeWebhookConnector (c : MCPConnector) (action : String) (params : JValue)
    (o : WebhookOutcome) : MCPResponse :=
  let _ := (c.config.webhookUrl, action, params)
  match o with
  | .invalidUrl m => { success := false, error := some ("Webhook execution failed: " ++ m) }
  | .timedOut => { success := false, error := some "Webhook timeout" }
  | .reqError m => { success := false, error := some ("Webhook execution failed: " ++ m) }
  | .response sc sm body =>
      { success := statusSuccess sc
        data := some (.jstr body)
        error := if statusFailed sc then some ("Webhook failed: " ++ sm) else none }

/-- The environment of one `executeConnector` call: one outcome per dispatch
strategy, the wall-clock duration of the dispatch, and — modelling the
`try`/`catch` around dispatch — an optional exception thrown during
dispatch. -/
structure DispatchOracle where
  api : HttpOutcome := .timedOut
  cli : CliOutcome := .ok "" ""
  fs : FsOracle
  webhook : WebhookOutcome := .timedOut
  elapsed : Nat := 0
  thrown : Option String := none

/-- Dispatch by connector type (the `switch (connector.type)` in
`executeConnector`); returns the strategy's envelope together with the
possibly-mutated connector (only the api strategy mutates). -/
def dispatchConnector (c : MCPConnector) (action : String) (params : JValue)
    (o : DispatchOracle) : MCPResponse × MCPConnector :=
  match c.ctype with
  | .api => executeAPIConnector c action params o.api
  | .cli => (executeCLIConnector c action params o.cli, c)
  | .file => (executeFileConnector c action params o.fs, c)
  | .database => (executeDatabaseConnector c action params, c)
  | .webhook => (executeWebhookConnector c action params o.webhook, c)

/-- The cache key computed on line 310 of the source:
`` `${connectorId}:${action}:${JSON.stringify(params)}` ``. -/
def cacheKeyOf (connectorId action : String) (params : JValue) : String :=
  connectorId ++ ":" ++ action ++ ":" ++ params.stringify

/-- Everything observable about one `executeConnector` call: the returned
envelope, the connector registry and response cache after the call, and
whether a dispatch strategy was entered. -/
structure ExecResult where
  response : MCPResponse
  connectors : List (String × MCPConnector)
  responseCache : List (String × CacheEntry)
  dispatched : Bool

/-- `executeConnector` from the source: lookup, disabled check, cache probe
(1-minute freshness), dispatch by type, duration stamping, caching of
successful responses, and the catch-all conversion of a thrown dispatch into
a failed envelope. -/
def executeConnector (connectors : List (String × MCPConnector))
    (cache : List (String × CacheEntry)) (connectorId action : String)
    (params : JValue) (now : Nat) (o : DispatchOracle) : ExecResult :=
  match mapGet connectors connectorId with
  | none =>
      { response := { success := false
                      error := some ("Connector '" ++ connectorId ++ "' not found") }
        connectors := connectors, responseCache := cache, dispatched := false }
  | some connector =>
    if connector.enabled = false then
      { response := { success := false
                      error := some ("Connector '" ++ connectorId ++ "' is disabled") }
        connectors := connectors, responseCache := cache, dispatched := false }
    else
      let cacheKey := cacheKeyOf connectorId action params
      let hit : Option MCPResponse :=
        match mapGet cache cacheKey with
        | some entry => if now - entry.timestamp < 60000 then some entry.response else none
        | none => none
      match hit with
      | some r =>
          { response := { r with cached := some true }
            connectors := connectors, responseCache := cache, dispatched := false }
      | none =>
        match o.thrown with
        | some ex =>
            { response := { success := false
                            error := some ("Connector execution failed: " ++ ex)
                            duration := some o.elapsed }
              connectors := connectors, responseCache := cache, dispatched := true }
        | none =>
          let dispatched := dispatchConnector connector action params o
          let response := { dispatched.1 with duration := some o.elapsed }
          let connectors' := mapSet connectors connectorId dispatched.2
          let cache' :=
            if response.success
            then mapSet cache cacheKey { response := response, timestamp := now + o.elapsed }
            else cache
          { response := response, connectors := connectors'
            responseCache := cache', dispatched := true }

/-- Workflow step type (`WorkflowStep.type` in the source). -/
inductive StepType where
  | connector | ai | user | condition
  deriving DecidableEq

/-- `WorkflowStep` from the source (`type` renamed `stepType`). -/
structure WorkflowStep where
  id : String
  name : String
  stepType : StepType
  connectorId : Option String := none
  prompt : Option String := none
  condition : Option String := none
  onSuccess : Option String := none
  onFailure : Option String := none
  timeout : Option Nat := none
  required : Bool := false

/-- `MCPWorkflow` from the source (`variables` renamed `vars`, a reserved
word). -/
structure MCPWorkflow where
  id : String
  name : String
  description : String
  triggers : List String := []
  steps : List WorkflowStep
  vars : JValue := .jobj []
  enabled : Bool := true

/-- One entry of the `results` array accumulated by `executeWorkflow`:
`{ stepId, stepName, result }`. -/
structure StepRecord where
  stepId : String
  stepName : String
  result : MCPResponse

/-- Outcome of the dynamically evaluated condition expression
(`Function('context', …)`): a boolean value, or a thrown exception. -/
inductive CondOutcome where
  | value (b : Bool)
  | thrown

/-- The environment of one workflow run: results of connector steps (the
nested `executeConnector` call), of ai steps (the `aiProvider` call, which
may reject), and of each dynamic condition evaluation.  Each oracle sees the
step and the results accumulated so far, so outcomes may vary over the run. -/
structure WorkflowOracle where
  connectorResult : WorkflowStep → List StepRecord → MCPResponse
  aiResult : WorkflowStep → List StepRecord → Except String String
  evalCondOutcome : String → JValue → List StepRecord → CondOutcome

/-- `evaluateCondition` from the source: evaluate the expression against the
workflow context; a thrown evaluation is caught and returned as `false`. -/
def evaluateCondition (condition : String) (vars : JValue)
    (results : List StepRecord) (o : WorkflowOracle) : Bool :=
  match o.evalCondOutcome condition vars results with
  | .value b => b
  | .thrown => false

/-- The `stepResult` envelope computed for one step by the `switch
(step.type)` in `executeWorkflow` (lines 744-791 of the source). -/
def stepResultOf (wf : MCPWorkflow) (o : WorkflowOracle) (step : WorkflowStep)
    (results : List StepRecord) : MCPResponse :=
  match step.stepType with
  | .connector =>
      match step.connectorId with
      | none => { success := false, error := some "No connector specified" }
      | some _ => o.connectorResult step results
  | .ai =>
      match step.prompt with
      | none => { success := false, error := some "No prompt specified" }
      | some _ =>
          match o.aiResult step results with
          | .ok resp =>
              { success := true, data := some (.jobj [("response", .jstr resp)]) }
          | .error e =>
              { success := false, error := some ("AI step failed: " ++ toString e) }
  | .user =>
      { success := true, data := some (.jobj [("userInput", .jstr "approved")]) }
  | .condition =>
      { success := true
        data := some (.jobj [("result",
          .jbool (evaluateCondition (step.condition.getD "true") wf.vars results o))]) }

/-- Positional advancement (lines 807-809 of the source):
`findIndex` on the current step id, then `steps[currentIndex + 1]?.id`.
JS `findIndex` returns `-1` when nothing matches, in which case
`steps[-1 + 1]` is `steps[0]` — mirrored here (the branch is unreachable
because the step was already found by id). -/
def positionalNext (wf : MCPWorkflow) (sid : String) : Option String :=
  match wf.steps.findIdx? (fun s => s.id == sid) with
  | some i => (wf.steps.get? (i + 1)).map (fun s => s.id)
  | none => (wf.steps.get? 0).map (fun s => s.id)

/-- Result of a workflow run: the final `return` of `executeWorkflow`'s loop,
before packaging into an envelope. -/
inductive WorkflowOutcome where
  | completed (results : List StepRecord)
  | failed (errorMsg : String) (results : List StepRecord)

/-- Result of one iteration of the `while` loop: either the loop returned
(halted) or it continues with a new current step id and result log. -/
inductive IterStep where
  | halted (outcome : WorkflowOutcome)
  | next (nextId : Option String) (results : List StepRecord)

/-- One iteration of the `while (currentStepId)` loop in `executeWorkflow`:
find the step (an unknown id breaks out of the loop into the success
return), compute its result, then either branch via the condition pointers
(condition steps `continue` and never reach the halting check or positional
advance), or append the result, apply the required-failure halting rule, and
advance positionally. -/
def runStep (wf : MCPWorkflow) (o : WorkflowOracle) (sid : String)
    (results : List StepRecord) : IterStep :=
  match wf.steps.find? (fun s => s.id == sid) with
  | none => .halted (.completed results)
  | some step =>
    let stepResult := stepResultOf wf o step results
    match step.stepType with
    | .condition =>
        let condResult :=
          evaluateCondition (step.condition.getD "true") wf.vars results o
        .next (if condResult then step.onSuccess else step.onFailure)
          (results ++ [{ stepId := step.id, stepName := step.name, result := stepResult }])
    | _ =>
        let results' :=
          results ++ [{ stepId := step.id, stepName := step.name, result := stepResult }]
        if !stepResult.success && step.required then
          .halted (.failed
            ("Required step '" ++ step.name ++ "' failed: " ++ jsShow stepResult.error)
            results')
        else
          .next (positionalNext wf sid) results'

/-- The `while (currentStepId)` loop, fuelled.  An absent id and — matching JS
string truthiness — an empty-string id end the loop in the success return.
Fuel exhaustion (an artifact of the embedding; the JS loop would simply keep
running) also returns the success envelope. -/
def runWorkflowLoop (wf : MCPWorkflow) (o : WorkflowOracle) :
    Nat → Option String → List StepRecord → WorkflowOutcome
  | _, none, results => .completed results
  | 0, some _, results => .completed results
  | fuel + 1, some sid, results =>
      if sid = "" then .completed results
      else
        match runStep wf o sid results with
        | .halted outcome => outcome
        | .next nid results' => runWorkflowLoop wf o fuel nid results'

/-- JSON view of one step record, as embedded in `data.workflowResults`. -/
def responseToJ (r : MCPResponse) : JValue :=
  .jobj ([("success", .jbool r.success)]
    ++ (match r.data with | some d => [("data", d)] | none => [])
    ++ (match r.error with | some e => [("error", JValue.jstr e)] | none => [])
    ++ (match r.metadata with | some m => [("metadata", m)] | none => [])
    ++ (match r.cached with | some b => [("cached", JValue.jbool b)] | none => [])
    ++ (match r.duration with | some n => [("duration", JValue.jnum n)] | none => []))

/-- JSON view of a `{ stepId, stepName, result }` record. -/
def stepRecordToJ (r : StepRecord) : JValue :=
  .jobj [("stepId", .jstr r.stepId), ("stepName", .jstr r.stepName),
         ("result", responseToJ r.result)]

/-- The `{ workflowResults: results }` data object returned by
`executeWorkflow`. -/
def resultsData (rs : List StepRecord) : JValue :=
  .jobj [("workflowResults", .jarr (rs.map stepRecordToJ))]

/-- `executeWorkflow` from the source: lookup, disabled check, the step loop
starting at `steps[0]?.id`, and packaging of the outcome into an envelope. -/
def executeWorkflow (workflows : List (String × MCPWorkflow)) (workflowId : String)
    (fuel : Nat) (o : WorkflowOracle) : MCPResponse :=
  match mapGet workflows workflowId with
  | none =>
      { success := false, error := some ("Workflow '" ++ workflowId ++ "' not found") }
  | some wf =>
    if wf.enabled = false then
      { success := false, error := some ("Workflow '" ++ workflowId ++ "' is disabled") }
    else
      match runWorkflowLoop wf o fuel ((wf.steps.get? 0).map (fun s => s.id)) [] with
      | .completed rs =>
          { success := true, data := some (resultsData rs)
            metadata := some (.jobj [("workflow", .jstr wf.name)]) }
      | .failed e rs =>
          { success := false, error := some e, data := some (resultsData rs) }

/-- An HTTP outcome that completed without a truthy status code — the one
shape on which the api strategy reports failure without an error message. -/
def httpNoStatus : HttpOutcome → Bool
  | .response sc _ _ _ _ => !jsTruthyNat sc
  | _ => false

/-- The webhook analogue of `httpNoStatus`. -/
def webhookNoStatus : WebhookOutcome → Bool
  | .response sc _ _ => !jsTruthyNat sc
  | _ => false

/-- Whether the dispatch strategy selected for connector type `t` completed an
HTTP exchange without a truthy status code. -/
def dispatchNoStatus (t : ConnectorType) (o : DispatchOracle) : Bool :=
  match t with
  | .api => httpNoStatus o.api
  | .webhook => webhookNoStatus o.webhook
  | _ => false

/-- A trivial filesystem oracle for concrete instances. -/
def cxFsOracle : FsOracle :=
  { readFile := fun _ => .error "e", writeFile := fun _ _ => .ok ()
    appendFile := fun _ _ => .ok (), accessOk := fun _ => true
    stat := fun _ => .error "e" }

/-- An enabled api connector used in concrete instances. -/
def cxApiConnector : MCPConnector :=
  { id := "w", name := "W", description := "demo", ctype := .api
    config := { endpoint := some "http://x" }, enabled := true, priority := 0 }

/-- A dispatch environment whose HTTP response carries no status code. -/
def cxNoStatusOracle : DispatchOracle :=
  { api := .response none "" "" none [], fs := cxFsOracle }

/-- A parameter object with keys inserted in the order a, b. -/
def paramsAB : JValue := .jobj [("a", .jnum 1), ("b", .jnum 2)]

/-- The same key-value map as `paramsAB`, inserted in the order b, a. -/
def paramsBA : JValue := .jobj [("b", .jnum 2), ("a", .jnum 1)]

/-- An enabled api connector with configured headers and bearer
authentication, so the header-aliasing mutation is observable. -/
def demoAuthConnector : MCPConnector :=
  { id := "gh", name := "GitHub", description := "demo", ctype := .api
    config := { endpoint := some "https://api.example"
                headers := some [("Accept", "application/json")]
                authentication := some { authType := .bearer, credentials := [("token", "t0")] } }
    enabled := true, priority := 100 }

/-- A dispatch environment whose HTTP request times out. -/
def demoDispatchOracle : DispatchOracle := { api := .timedOut, fs := cxFsOracle }

/-- An enabled cli connector. -/
def demoCliConnector : MCPConnector :=
  { id := "git", name := "Git", description := "demo", ctype := .cli
    config := { command := some "git" }, enabled := true, priority := 0 }

/-- A condition step with both navigation pointers set. -/
def demoCondStep : WorkflowStep :=
  { id := "s1", name := "Check", stepType := .condition, condition := some "x > 0",
    onSuccess := some "s9", onFailure := some "s2" }

/-- A workflow environment whose condition evaluation always throws. -/
def demoThrowOracle : WorkflowOracle :=
  { connectorResult := fun _ _ => { success := true }
    aiResult := fun _ _ => Except.ok "ok"
    evalCondOutcome := fun _ _ _ => .thrown }

/-- A one-step workflow consisting of the condition step. -/
def demoCondWf : MCPWorkflow :=
  { id := "w", name := "W", description := "demo", steps := [demoCondStep] }

/-- A required connector step (the failing first step A). -/
def demoFailStep : WorkflowStep :=
  { id := "a", name := "A", stepType := .connector, connectorId := some "c9", required := true }

/-- The second step B, never reached when A fails. -/
def demoStepB : WorkflowStep :=
  { id := "b", name := "B", stepType := .user }

/-- The workflow [A(required), B]. -/
def demoFailWf : MCPWorkflow :=
  { id := "wfx", name := "WFX", description := "demo", steps := [demoFailStep, demoStepB] }

/-- A workflow environment in which every connector step fails. -/
def demoFailOracle : WorkflowOracle :=
  { connectorResult := fun _ _ => { success := false, error := some "boom" }
    aiResult := fun _ _ => Except.ok "ok"
    evalCondOutcome := fun _ _ _ => .value true }

/-- An enabled database connector (its dispatch is a pure stub that
always succeeds, convenient for exercising the cache write). -/
def demoDbConnector : MCPConnector :=
  { id := "db", name := "DB", description := "demo", ctype := .database
    config := {}, enabled := true, priority := 0 }

/-- A connector that exists but is disabled. -/
def demoDisabledConnector : MCPConnector :=
  { id := "cal", name := "Calendar", description := "demo", ctype := .api
    config := { endpoint := some "https://cal" }, enabled := false, priority := 60 }

/-- A successful `mapGet` lookup is a member of the association list. -/
theorem mapGet_mem {α : Type} (m : List (String × α)) (k : String) (v : α)
    (h : mapGet m k = some v) : (k, v) ∈ m := by
  induction m with
  | nil => simp [mapGet] at h
  | cons p rest ih =>
    obtain ⟨k', v'⟩ := p
    by_cases hk : k' = k
    · subst hk
      simp [mapGet] at h
      subst h
      exact List.mem_cons_self _ _
    · simp [mapGet, hk] at h
      exact List.mem_cons_of_mem _ (ih h)

/-- Membership after `mapSet`: an entry is the newly written pair or was
already present. -/
theorem mem_mapSet {α : Type} (m : List (String × α)) (k : String) (v : α)
    (a : String × α) (h : a ∈ mapSet m k v) : a = (k, v) ∨ a ∈ m := by
  induction m with
  | nil => simp [mapSet] at h; simp [h]
  | cons p rest ih =>
    obtain ⟨k', v'⟩ := p
    by_cases hk : k' = k
    · subst hk
      simp [mapSet] at h
      rcases h with h | h
      · left; simp [h]
      · right; exact List.mem_cons_of_mem _ h
    · simp [mapSet, hk] at h
      rcases h with h | h
      · right; simp [h]
      · rcases ih h with h' | h'
        · left; exact h'
        · right; exact List.mem_cons_of_mem _ h'

/-- Looking up the key just written by `mapSet` returns the written
value. -/
theorem mapGet_mapSet_self {α : Type} (m : List (String × α)) (k : String) (v : α) :
    mapGet (mapSet m k v) k = some v := by
  induction m with
  | nil => simp [mapSet, mapGet]
  | cons p rest ih =>
    obtain ⟨k', v'⟩ := p
    by_cases hk : k' = k
    · subst hk; simp [mapSet, mapGet]
    · simp [mapSet, mapGet, hk, ih]

/-- No dispatch strategy changes the `enabled` flag of the connector
(the api strategy mutates only the configured headers). -/
theorem dispatchConnector_preserves_enabled (c : MCPConnector) (action : String)
    (params : JValue) (o : DispatchOracle) :
    (dispatchConnector c action params o).2.enabled = c.enabled := by
  rcases hc : c.ctype <;> simp only [dispatchConnector, hc]
  · by_cases h1 : action = "get" ∨ action = "post" ∨ action = "put" ∨ action = "delete" <;>
      by_cases h2 : c.config.headers.isSome <;>
        simp [executeAPIConnector, h1, h2]

/-- A failed api network envelope carries an error message unless the
completed response had no truthy status code. -/
theorem apiHttpResponse_failure_error (o : HttpOutcome) :
    (apiHttpResponse o).success = false →
    (apiHttpResponse o).error.isSome = true ∨ httpNoStatus o = true := by
  cases o with
  | invalidUrl m => exact fun _ => Or.inl rfl
  | timedOut => exact fun _ => Or.inl rfl
  | reqError m => exact fun _ => Or.inl rfl
  | response sc sm body parsed hdrs =>
    cases sc with
    | none => exact fun _ => Or.inr rfl
    | some n =>
      by_cases h0 : n = 0
      · subst h0; exact fun _ => Or.inr rfl
      · intro h
        left
        simp only [apiHttpResponse, statusSuccess, if_neg h0,
          decide_eq_false_iff_not, not_lt] at h
        have h4 : 400 ≤ n := by omega
        simp [apiHttpResponse, statusFailed, h0, h4]

/-- A failed api-strategy envelope carries an error message unless the
response had no truthy status code. -/
theorem executeAPIConnector_failure_error (c : MCPConnector) (action : String)
    (params : JValue) (o : HttpOutcome) :
    (executeAPIConnector c action params o).1.success = false →
    (executeAPIConnector c action params o).1.error.isSome = true ∨ httpNoStatus o = true := by
  simp only [executeAPIConnector]
  split
  · exact apiHttpResponse_failure_error o
  · intro _; left; rfl

/-- A failed cli-strategy envelope always carries an error message. -/
theorem executeCLIConnector_failure_error (c : MCPConnector) (action : String)
    (params : JValue) (o : CliOutcome) :
    (executeCLIConnector c action params o).success = false →
    (executeCLIConnector c action params o).error.isSome = true := by
  cases o <;> simp [executeCLIConnector]

/-- A failed file-strategy envelope always carries an error message. -/
theorem executeFileConnector_failure_error (c : MCPConnector) (action : String)
    (params : JValue) (o : FsOracle) :
    (executeFileConnector c action params o).success = false →
    (executeFileConnector c action params o).error.isSome = true := by
  unfold executeFileConnector
  split
  · cases hr : o.readFile (filePathOf c params) <;> simp [hr]
  · cases hr : o.writeFile (filePathOf c params) (jsFieldStr params "content") <;> simp [hr]
  · cases hr : o.appendFile (filePathOf c params) (jsFieldStr params "content") <;> simp [hr]
  · simp
  · cases hr : o.stat (filePathOf c params) <;> simp [hr]
  · simp

/-- A failed database-strategy envelope always carries an error
message. -/
theorem executeDatabaseConnector_failure_error (c : MCPConnector) (action : String)
    (params : JValue) :
    (executeDatabaseConnector c action params).success = false →
    (executeDatabaseConnector c action params).error.isSome = true := by
  unfold executeDatabaseConnector
  split <;> simp

/-- A failed webhook-strategy envelope carries an error message unless
the response had no truthy status code. -/
theorem executeWebhookConnector_failure_error (c : MCPConnector) (action : String)
    (params : JValue) (o : WebhookOutcome) :
    (executeWebhookConnector c action params o).success = false →
    (executeWebhookConnector c action params o).error.isSome = true ∨ webhookNoStatus o = true := by
  cases o with
  | invalidUrl m => exact fun _ => Or.inl rfl
  | timedOut => exact fun _ => Or.inl rfl
  | reqError m => exact fun _ => Or.inl rfl
  | response sc sm body =>
    cases sc with
    | none => exact fun _ => Or.inr rfl
    | some n =>
      by_cases h0 : n = 0
      · subst h0; exact fun _ => Or.inr rfl
      · intro h
        left
        simp only [executeWebhookConnector, statusSuccess, if_neg h0,
          decide_eq_false_iff_not, not_lt] at h
        have h4 : 400 ≤ n := by omega
        simp [executeWebhookConnector, statusFailed, h0, h4]

/-- A failed dispatch envelope carries an error message unless the api
or webhook response had no truthy status code. -/
theorem dispatchConnector_failure_error (c : MCPConnector) (action : String)
    (params : JValue) (o : DispatchOracle) :
    (dispatchConnector c action params o).1.success = false →
    (dispatchConnector c action params o).1.error.isSome = true ∨
      dispatchNoStatus c.ctype o = true := by
  rcases hc : c.ctype <;> simp only [dispatchConnector, hc, dispatchNoStatus]
  · exact executeAPIConnector_failure_error c action params o.api
  · exact fun h => Or.inl (executeCLIConnector_failure_error c action params o.cli h)
  · exact fun h => Or.inl (executeFileConnector_failure_error c action params o.fs h)
  · exact fun h => Or.inl (executeDatabaseConnector_failure_error c action params h)
  · exact executeWebhookConnector_failure_error c action params o.webhook

/-- The cache write after dispatch preserves the all-successful cache
invariant. -/
theorem cacheAfterDispatch_mem
    (cache : List (String × CacheEntry)) (key : String) (resp : MCPResponse) (ts : Nat)
    (h : ∀ e ∈ cache, e.2.response.success = true)
    (e : String × CacheEntry)
    (he : e ∈ (if resp.success = true
      then mapSet cache key { response := resp, timestamp := ts } else cache)) :
    e.2.response.success = true := by
  by_cases hs : resp.success = true
  · rw [if_pos hs] at he
    rcases mem_mapSet _ _ _ _ he with rfl | hmem
    · exact hs
    · exact h _ hmem
  · rw [if_neg hs] at he
    exact h _ he

/-- The cache write after dispatch is skipped for failed envelopes. -/
theorem cacheAfterDispatch_unchanged
    (cache : List (String × CacheEntry)) (key : String) (resp : MCPResponse) (ts : Nat)
    (hf : resp.success = false) :
    (if resp.success = true
      then mapSet cache key { response := resp, timestamp := ts } else cache) = cache := by
  rw [hf]
  simp

/-- Claim C1, counterexample: on an enabled api connector whose HTTP
response carries no status code, `executeConnector` returns an envelope with
`success = false` and no `error` field, refuting the claim as stated. -/
theorem executeConnector_missing_error_cx :
    (executeConnector [("w", cxApiConnector)] [] "w" "get" (.jobj []) 0
        cxNoStatusOracle).response.success = false ∧
    (executeConnector [("w", cxApiConnector)] [] "w" "get" (.jobj []) 0
        cxNoStatusOracle).response.error = none :=
  ⟨rfl, rfl⟩

/-- Claim C1, amended: for every connector id, action, params and
dispatch environment, if the cache holds only successful envelopes then a
returned envelope with `success = false` carries an `error` message, except
when the api or webhook strategy completed an HTTP response without a truthy
status code (in which case the source sets `success` to `false` but leaves
`error` undefined). -/
theorem executeConnector_failure_has_error
    (connectors : List (String × MCPConnector)) (cache : List (String × CacheEntry))
    (cid action : String) (params : JValue) (now : Nat) (o : DispatchOracle)
    (hcache : ∀ e ∈ cache, e.2.response.success = true) :
    (executeConnector connectors cache cid action params now o).response.success = false →
    (executeConnector connectors cache cid action params now o).response.error.isSome = true ∨
      ∃ c, mapGet connectors cid = some c ∧ dispatchNoStatus c.ctype o = true := by
  intro hfail
  unfold executeConnector at hfail ⊢
  rcases hg : mapGet connectors cid with _ | c
  · simp only [hg] at hfail ⊢
    left; rfl
  · simp only [hg] at hfail ⊢
    by_cases he : c.enabled = false
    · simp only [if_pos he] at hfail ⊢
      left; rfl
    · simp only [if_neg he] at hfail ⊢
      rcases hh : mapGet cache (cacheKeyOf cid action params) with _ | entry
      · simp only [hh] at hfail ⊢
        rcases hth : o.thrown with _ | ex
        · simp only [hth] at hfail ⊢
          rcases dispatchConnector_failure_error c action params o hfail with herr | hns
          · left; exact herr
          · right; exact ⟨c, rfl, hns⟩
        · simp only [hth] at hfail ⊢
          left; rfl
      · simp only [hh] at hfail ⊢
        by_cases ht : now - entry.timestamp < 60000
        · simp only [if_pos ht] at hfail ⊢
          have hsucc := hcache _ (mapGet_mem _ _ _ hh)
          rw [hsucc] at hfail
          exact Bool.noConfusion hfail
        · simp only [if_neg ht] at hfail ⊢
          rcases hth : o.thrown with _ | ex
          · simp only [hth] at hfail ⊢
            rcases dispatchConnector_failure_error c action params o hfail with herr | hns
            · left; exact herr
            · right; exact ⟨c, rfl, hns⟩
          · simp only [hth] at hfail ⊢
            left; rfl

/-- Claim C1, witness: the amended theorem applied to a concrete call on
an unknown connector id with an empty cache. -/
theorem executeConnector_failure_has_error_witness :
    (∀ e ∈ ([] : List (String × CacheEntry)), e.2.response.success = true) ∧
    ((executeConnector [] [] "z" "get" (.jobj []) 0 cxNoStatusOracle).response.success = false →
      (executeConnector [] [] "z" "get" (.jobj []) 0 cxNoStatusOracle).response.error.isSome = true ∨
        ∃ c, mapGet ([] : List (String × MCPConnector)) "z" = some c ∧
          dispatchNoStatus c.ctype cxNoStatusOracle = true) :=
  ⟨by simp, executeConnector_failure_has_error [] [] "z" "get" (.jobj []) 0
    cxNoStatusOracle (by simp)⟩

/-- Claim C2: for a condition step, the loop iteration yields exactly
`.next` with the id taken from `onSuccess` when the condition evaluates true
and from `onFailure` when it evaluates false, never positional advancement;
and a thrown condition evaluation is treated as `false`. -/
theorem condition_step_navigation
    (wf : MCPWorkflow) (o : WorkflowOracle) (sid : String) (rs : List StepRecord)
    (step : WorkflowStep)
    (hfind : wf.steps.find? (fun s => s.id == sid) = some step)
    (htype : step.stepType = StepType.condition) :
    runStep wf o sid rs =
      IterStep.next
        (if evaluateCondition (step.condition.getD "true") wf.vars rs o
          then step.onSuccess else step.onFailure)
        (rs ++ [{ stepId := step.id, stepName := step.name,
                  result := stepResultOf wf o step rs }]) ∧
    (∀ cnd vars2 rs2, o.evalCondOutcome cnd vars2 rs2 = CondOutcome.thrown →
      evaluateCondition cnd vars2 rs2 o = false) := by
  constructor
  · unfold runStep
    rw [hfind]
    simp only [htype]
  · intro cnd vars2 rs2 hth
    unfold evaluateCondition
    rw [hth]

/-- Claim C2, witness: the navigation theorem applied to a concrete
workflow whose condition expression throws. -/
theorem condition_step_navigation_witness :
    demoCondWf.steps.find? (fun s => s.id == "s1") = some demoCondStep ∧
    demoCondStep.stepType = StepType.condition ∧
    (runStep demoCondWf demoThrowOracle "s1" [] =
      IterStep.next
        (if evaluateCondition (demoCondStep.condition.getD "true") demoCondWf.vars []
            demoThrowOracle
          then demoCondStep.onSuccess else demoCondStep.onFailure)
        ([] ++ [{ stepId := demoCondStep.id, stepName := demoCondStep.name,
                  result := stepResultOf demoCondWf demoThrowOracle demoCondStep [] }]) ∧
     (∀ cnd vars2 rs2, demoThrowOracle.evalCondOutcome cnd vars2 rs2 = CondOutcome.thrown →
       evaluateCondition cnd vars2 rs2 demoThrowOracle = false)) :=
  ⟨rfl, rfl, condition_step_navigation demoCondWf demoThrowOracle "s1" [] demoCondStep rfl rfl⟩

/-- Claim C3: a workflow whose first step is required and fails halts
immediately with a failed envelope whose result log is exactly the one entry
for that step; and in general a required-failure halt returns the incoming
log extended with exactly the failing step record, appended before the
halting decision. -/
theorem required_first_step_halts
    (workflows : List (String × MCPWorkflow)) (wid : String) (wf : MCPWorkflow)
    (o : WorkflowOracle) (s : WorkflowStep) (rest : List WorkflowStep) (fuel : Nat)
    (hw : mapGet workflows wid = some wf)
    (hen : wf.enabled = true)
    (hsteps : wf.steps = s :: rest)
    (hid : s.id ≠ "")
    (hreq : s.required = true)
    (hfail : (stepResultOf wf o s []).success = false) :
    executeWorkflow workflows wid (fuel + 1) o =
      { success := false
        error := some ("Required step '" ++ s.name ++ "' failed: " ++
          jsShow (stepResultOf wf o s []).error)
        data := some (resultsData
          [{ stepId := s.id, stepName := s.name, result := stepResultOf wf o s [] }]) } ∧
    (∀ sid rs msg rs2,
      runStep wf o sid rs = IterStep.halted (WorkflowOutcome.failed msg rs2) →
      ∃ rec, rs2 = rs ++ [rec] ∧ rec.result.success = false) := by
  constructor
  · have hfind : wf.steps.find? (fun s2 => s2.id == s.id) = some s := by
      rw [hsteps]
      exact List.find?_cons_of_pos _ (by simp)
    have hrun : runStep wf o s.id [] = IterStep.halted (WorkflowOutcome.failed
        ("Required step '" ++ s.name ++ "' failed: " ++ jsShow (stepResultOf wf o s []).error)
        [{ stepId := s.id, stepName := s.name, result := stepResultOf wf o s [] }]) := by
      unfold runStep
      rw [hfind]
      rcases hst : s.stepType
      · simp only [hst, hfail, hreq, Bool.not_false, Bool.and_self, if_pos]
        simp
      · simp only [hst, hfail, hreq, Bool.not_false, Bool.and_self, if_pos]
        simp
      · exact absurd hfail (by simp [stepResultOf, hst])
      · exact absurd hfail (by simp [stepResultOf, hst])
    have hloop : runWorkflowLoop wf o (fuel + 1) (some s.id) [] =
        WorkflowOutcome.failed
          ("Required step '" ++ s.name ++ "' failed: " ++ jsShow (stepResultOf wf o s []).error)
          [{ stepId := s.id, stepName := s.name, result := stepResultOf wf o s [] }] := by
      show (if s.id = "" then WorkflowOutcome.completed [] else
        match runStep wf o s.id [] with
        | IterStep.halted outcome => outcome
        | IterStep.next nid results' => runWorkflowLoop wf o fuel nid results') = _
      rw [if_neg hid, hrun]
    unfold executeWorkflow
    simp only [hw]
    rw [if_neg (show ¬wf.enabled = false by simp [hen])]
    rw [hsteps]
    rw [show ((s :: rest).get? 0).map (fun s2 => s2.id) = some s.id from rfl]
    rw [hloop]
  · intro sid rs msg rs2 h
    unfold runStep at h
    rcases hf : wf.steps.find? (fun s2 => s2.id == sid) with _ | step2
    · rw [hf] at h
      simp at h
    · rw [hf] at h
      rcases hst : step2.stepType
      case condition =>
        simp only [hst] at h
        simp at h
      all_goals (
        simp only [hst] at h
        by_cases hcond : (!(stepResultOf wf o step2 rs).success && step2.required) = true
        · rw [if_pos hcond] at h
          simp only [IterStep.halted.injEq, WorkflowOutcome.failed.injEq] at h
          refine ⟨{ stepId := step2.id, stepName := step2.name, result := stepResultOf wf o step2 rs }, h.2.symm, ?_⟩
          cases hb : (stepResultOf wf o step2 rs).success
          · simp [hb]
          · rw [hb] at hcond
            simp at hcond
        · rw [if_neg hcond] at h
          simp at h)

/-- Claim C3, witness: the halting theorem applied to the concrete
workflow [A(required, fails), B]. -/
theorem required_first_step_halts_witness :
    mapGet [("wfx", demoFailWf)] "wfx" = some demoFailWf ∧
    demoFailWf.enabled = true ∧
    demoFailWf.steps = demoFailStep :: [demoStepB] ∧
    demoFailStep.id ≠ "" ∧
    demoFailStep.required = true ∧
    (stepResultOf demoFailWf demoFailOracle demoFailStep []).success = false ∧
    (executeWorkflow [("wfx", demoFailWf)] "wfx" (3 + 1) demoFailOracle =
      { success := false
        error := some ("Required step '" ++ demoFailStep.name ++ "' failed: " ++
          jsShow (stepResultOf demoFailWf demoFailOracle demoFailStep []).error)
        data := some (resultsData
          [{ stepId := demoFailStep.id, stepName := demoFailStep.name,
             result := stepResultOf demoFailWf demoFailOracle demoFailStep [] }]) } ∧
     (∀ sid rs msg rs2,
        runStep demoFailWf demoFailOracle sid rs =
          IterStep.halted (WorkflowOutcome.failed msg rs2) →
        ∃ rec, rs2 = rs ++ [rec] ∧ rec.result.success = false)) :=
  ⟨rfl, rfl, rfl, by decide, rfl, rfl,
    required_first_step_halts [("wfx", demoFailWf)] "wfx" demoFailWf demoFailOracle
      demoFailStep [demoStepB] 3 rfl rfl rfl (by decide) rfl rfl⟩

/-- Claim C4, counterexample: two parameter objects that are equal as
key-value maps (same keys "a" and "b" with equal values, different insertion
order) produce different cache keys, refuting the claim as stated. -/
theorem cacheKey_order_sensitive_cx :
    paramsAB.getField "a" = paramsBA.getField "a" ∧
    paramsAB.getField "b" = paramsBA.getField "b" ∧
    paramsAB.keys = ["a", "b"] ∧
    paramsBA.keys = ["b", "a"] ∧
    cacheKeyOf "c" "act" paramsAB ≠ cacheKeyOf "c" "act" paramsBA :=
  ⟨rfl, rfl, rfl, rfl, by decide⟩

/-- Claim C4, amended: the cache key is a deterministic function of the
serialization of (connectorId, action, params): parameter sets with equal
JSON serializations produce identical keys; key insertion order is not
canonicalized. -/
theorem cacheKey_serialization_deterministic
    (cid action : String) (p q : JValue)
    (h : JValue.stringify p = JValue.stringify q) :
    cacheKeyOf cid action p = cacheKeyOf cid action q := by
  unfold cacheKeyOf
  rw [h]

/-- Claim C4, witness: the amended determinism theorem applied to a
concrete parameter object. -/
theorem cacheKey_serialization_deterministic_witness :
    JValue.stringify paramsAB = JValue.stringify (.jobj [("a", .jnum 1), ("b", .jnum 2)]) ∧
    cacheKeyOf "c" "act" paramsAB = cacheKeyOf "c" "act" (.jobj [("a", .jnum 1), ("b", .jnum 2)]) :=
  ⟨rfl, cacheKey_serialization_deterministic "c" "act" paramsAB
    (.jobj [("a", .jnum 1), ("b", .jnum 2)]) rfl⟩

/-- Claim C5: `executeConnector` preserves the invariant that every
cached entry is a successful envelope, and a call whose dispatch failed
leaves the cache unchanged. -/
theorem cache_stores_only_success
    (connectors : List (String × MCPConnector)) (cache : List (String × CacheEntry))
    (cid action : String) (params : JValue) (now : Nat) (o : DispatchOracle)
    (h : ∀ e ∈ cache, e.2.response.success = true) :
    (∀ e ∈ (executeConnector connectors cache cid action params now o).responseCache,
      e.2.response.success = true) ∧
    ((executeConnector connectors cache cid action params now o).response.success = false →
      (executeConnector connectors cache cid action params now o).responseCache = cache) := by
  unfold executeConnector
  rcases hg : mapGet connectors cid with _ | c
  · simp only [hg]
    exact ⟨h, fun _ => by trivial⟩
  · simp only [hg]
    by_cases he : c.enabled = false
    · simp only [he, if_pos]
      exact ⟨h, fun _ => by trivial⟩
    · simp only [if_neg he]
      rcases hh : mapGet cache (cacheKeyOf cid action params) with _ | entry
      · simp only [hh]
        rcases hth : o.thrown with _ | ex
        · simp only [hth]
          exact ⟨cacheAfterDispatch_mem cache (cacheKeyOf cid action params)
              { (dispatchConnector c action params o).1 with duration := some o.elapsed }
              (now + o.elapsed) h,
            cacheAfterDispatch_unchanged cache (cacheKeyOf cid action params)
              { (dispatchConnector c action params o).1 with duration := some o.elapsed }
              (now + o.elapsed)⟩
        · simp only [hth]
          exact ⟨h, fun _ => by trivial⟩
      · simp only [hh]
        by_cases ht : now - entry.timestamp < 60000
        · simp only [if_pos ht]
          exact ⟨h, fun _ => by trivial⟩
        · simp only [if_neg ht]
          rcases hth : o.thrown with _ | ex
          · simp only [hth]
            exact ⟨cacheAfterDispatch_mem cache (cacheKeyOf cid action params)
                { (dispatchConnector c action params o).1 with duration := some o.elapsed }
                (now + o.elapsed) h,
              cacheAfterDispatch_unchanged cache (cacheKeyOf cid action params)
                { (dispatchConnector c action params o).1 with duration := some o.elapsed }
                (now + o.elapsed)⟩
          · simp only [hth]
            exact ⟨h, fun _ => by trivial⟩

/-- Claim C5, witness: the invariant theorem applied to a concrete call
whose api dispatch times out, starting from an empty cache. -/
theorem cache_stores_only_success_witness :
    (∀ e ∈ ([] : List (String × CacheEntry)), e.2.response.success = true) ∧
    ((∀ e ∈ (executeConnector [("gh", demoAuthConnector)] [] "gh" "get" (.jobj []) 0
        demoDispatchOracle).responseCache, e.2.response.success = true) ∧
     ((executeConnector [("gh", demoAuthConnector)] [] "gh" "get" (.jobj []) 0
          demoDispatchOracle).response.success = false →
       (executeConnector [("gh", demoAuthConnector)] [] "gh" "get" (.jobj []) 0
          demoDispatchOracle).responseCache = [])) :=
  ⟨by simp, cache_stores_only_success [("gh", demoAuthConnector)] [] "gh" "get" (.jobj []) 0
    demoDispatchOracle (by simp)⟩

/-- Claim C6: a call that dispatches and stores a successful envelope,
followed by an identical call within 60 seconds, returns that envelope with
only `cached` flipped to `true` — `data`, `error` and the originally stamped
`duration` are all preserved. -/
theorem cache_roundtrip
    (connectors : List (String × MCPConnector)) (cache : List (String × CacheEntry))
    (cid action : String) (params : JValue) (t1 t2 : Nat) (o1 o2 : DispatchOracle)
    (hmiss : mapGet cache (cacheKeyOf cid action params) = none)
    (hsucc : (executeConnector connectors cache cid action params t1 o1).response.success = true)
    (hfresh : t2 - (t1 + o1.elapsed) < 60000) :
    (executeConnector
        (executeConnector connectors cache cid action params t1 o1).connectors
        (executeConnector connectors cache cid action params t1 o1).responseCache
        cid action params t2 o2).response =
      { (executeConnector connectors cache cid action params t1 o1).response with
          cached := some true } := by
  have h1 := hsucc
  unfold executeConnector at h1
  rcases hg : mapGet connectors cid with _ | c
  · simp only [hg] at h1
    exact absurd h1 (by simp)
  · simp only [hg] at h1
    by_cases he : c.enabled = false
    · simp only [he, if_pos] at h1
      exact absurd h1 (by simp)
    · simp only [if_neg he, hmiss] at h1
      rcases hth : o1.thrown with _ | ex
      · simp only [hth] at h1
        have hc1 : executeConnector connectors cache cid action params t1 o1 =
            { response := { (dispatchConnector c action params o1).1 with
                duration := some o1.elapsed }
              connectors := mapSet connectors cid (dispatchConnector c action params o1).2
              responseCache := mapSet cache (cacheKeyOf cid action params)
                { response := { (dispatchConnector c action params o1).1 with
                    duration := some o1.elapsed }
                  timestamp := t1 + o1.elapsed }
              dispatched := true } := by
          unfold executeConnector
          simp only [hg, if_neg he, hmiss, hth]
          simp [h1]
        rw [hc1]
        unfold executeConnector
        simp only [mapGet_mapSet_self, dispatchConnector_preserves_enabled, if_neg he,
          if_pos hfresh]
      · simp only [hth] at h1
        exact absurd h1 (by simp)

/-- Claim C6, witness: the round-trip theorem applied to two concrete
calls on the database connector. -/
theorem cache_roundtrip_witness :
    mapGet ([] : List (String × CacheEntry)) (cacheKeyOf "db" "query" (.jobj [])) = none ∧
    (executeConnector [("db", demoDbConnector)] [] "db" "query" (.jobj []) 0
      demoDispatchOracle).response.success = true ∧
    5 - (0 + demoDispatchOracle.elapsed) < 60000 ∧
    (executeConnector
        (executeConnector [("db", demoDbConnector)] [] "db" "query" (.jobj []) 0
          demoDispatchOracle).connectors
        (executeConnector [("db", demoDbConnector)] [] "db" "query" (.jobj []) 0
          demoDispatchOracle).responseCache
        "db" "query" (.jobj []) 5 demoDispatchOracle).response =
      { (executeConnector [("db", demoDbConnector)] [] "db" "query" (.jobj []) 0
          demoDispatchOracle).response with cached := some true } :=
  ⟨rfl, rfl, by decide, cache_roundtrip [("db", demoDbConnector)] [] "db" "query" (.jobj [])
    0 5 demoDispatchOracle demoDispatchOracle rfl rfl (by decide)⟩

/-- Claim C7: calling `executeConnector` on an existing but disabled
connector returns `success = false` with the Disabled-class error, leaves
the cache and registry untouched, dispatches no strategy, and the returned
envelope does not depend on the cache contents (no cache read matters). -/
theorem disabled_connector_rejected
    (connectors : List (String × MCPConnector)) (cache : List (String × CacheEntry))
    (cid action : String) (params : JValue) (now : Nat) (o : DispatchOracle)
    (c : MCPConnector) (hc : mapGet connectors cid = some c) (hdis : c.enabled = false) :
    (executeConnector connectors cache cid action params now o).response =
      { success := false, error := some ("Connector '" ++ cid ++ "' is disabled") } ∧
    (executeConnector connectors cache cid action params now o).responseCache = cache ∧
    (executeConnector connectors cache cid action params now o).connectors = connectors ∧
    (executeConnector connectors cache cid action params now o).dispatched = false ∧
    ∀ cache2 : List (String × CacheEntry),
      (executeConnector connectors cache2 cid action params now o).response =
        { success := false, error := some ("Connector '" ++ cid ++ "' is disabled") } := by
  refine ⟨?_, ?_, ?_, ?_, fun cache2 => ?_⟩ <;>
    simp [executeConnector, hc, hdis]

/-- Claim C7, witness: the disabled-connector theorem applied to a
concrete disabled connector. -/
theorem disabled_connector_rejected_witness :
    mapGet [("cal", demoDisabledConnector)] "cal" = some demoDisabledConnector ∧
    demoDisabledConnector.enabled = false ∧
    ((executeConnector [("cal", demoDisabledConnector)] [] "cal" "get" (.jobj []) 0
        demoDispatchOracle).response =
      { success := false, error := some ("Connector '" ++ "cal" ++ "' is disabled") } ∧
     (executeConnector [("cal", demoDisabledConnector)] [] "cal" "get" (.jobj []) 0
        demoDispatchOracle).responseCache = [] ∧
     (executeConnector [("cal", demoDisabledConnector)] [] "cal" "get" (.jobj []) 0
        demoDispatchOracle).connectors = [("cal", demoDisabledConnector)] ∧
     (executeConnector [("cal", demoDisabledConnector)] [] "cal" "get" (.jobj []) 0
        demoDispatchOracle).dispatched = false ∧
     ∀ cache2 : List (String × CacheEntry),
       (executeConnector [("cal", demoDisabledConnector)] cache2 "cal" "get" (.jobj []) 0
          demoDispatchOracle).response =
        { success := false, error := some ("Connector '" ++ "cal" ++ "' is disabled") }) :=
  ⟨rfl, rfl, disabled_connector_rejected [("cal", demoDisabledConnector)] [] "cal" "get"
    (.jobj []) 0 demoDispatchOracle demoDisabledConnector rfl rfl⟩

/-- Claim C8, code bug: executing an api connector that has configured
headers mutates the stored connector definition — the `Authorization` header
added by `addAuthentication` persists into `config.headers`, because the
destructured local `headers` object aliases it; the connector registry after
the call differs from the registry before it. -/
theorem api_dispatch_mutates_stored_headers :
    (executeAPIConnector demoAuthConnector "get" (.jobj []) HttpOutcome.timedOut).2.config.headers =
      some [("Accept", "application/json"), ("Authorization", "Bearer t0")] ∧
    (executeAPIConnector demoAuthConnector "get" (.jobj []) HttpOutcome.timedOut).2.config.headers ≠
      demoAuthConnector.config.headers ∧
    (executeConnector [("gh", demoAuthConnector)] [] "gh" "get" (.jobj []) 0
        demoDispatchOracle).connectors ≠ [("gh", demoAuthConnector)] :=
  ⟨rfl, by decide, by decide⟩

/-- Claim C9, counterexample: on the cli success path the captured
stdout/stderr are trimmed, not verbatim: stdout "ok\n" is stored as "ok". -/
theorem cli_stdout_trimmed_cx :
    (executeCLIConnector demoCliConnector "run" (.jobj [])
      (.ok "ok\n" " err ")).dataField "stdout" = some (.jstr "ok") ∧
    (executeCLIConnector demoCliConnector "run" (.jobj [])
      (.ok "ok\n" " err ")).dataField "stderr" = some (.jstr "err") ∧
    "ok" ≠ "ok\n" ∧ "err" ≠ " err " :=
  ⟨rfl, rfl, by decide, by decide⟩

/-- Claim C9, amended: the cli strategy captures stdout/stderr after
trimming leading and trailing whitespace on the success path, and verbatim
(with absent values defaulting to the empty string) on the failure path. -/
theorem cli_capture_trim_amended
    (c : MCPConnector) (action : String) (params : JValue)
    (out err msg : String) (pout perr : Option String) :
    (executeCLIConnector c action params (.ok out err)).data =
      some (.jobj [("stdout", .jstr (jsTrim out)), ("stderr", .jstr (jsTrim err))]) ∧
    (executeCLIConnector c action params (.err msg pout perr)).data =
      some (.jobj [("stdout", .jstr (pout.getD "")), ("stderr", .jstr (perr.getD ""))]) ∧
    (executeCLIConnector c action params (.ok out err)).success = true ∧
    (executeCLIConnector c action params (.err msg pout perr)).success = false :=
  ⟨rfl, rfl, rfl, rfl⟩

/-- Claim C10: a condition step never halts the workflow: the iteration
always continues with a recorded result whose `success` is `true`, whatever
the condition evaluated to and whatever the `required` flag is, so the
halting rule never consults a condition step. -/
theorem condition_step_never_fails
    (wf : MCPWorkflow) (o : WorkflowOracle) (sid : String) (rs : List StepRecord)
    (step : WorkflowStep)
    (hfind : wf.steps.find? (fun s => s.id == sid) = some step)
    (htype : step.stepType = StepType.condition) :
    ∃ nid r, runStep wf o sid rs =
      IterStep.next nid (rs ++ [{ stepId := step.id, stepName := step.name, result := r }]) ∧
      r.success = true := by
  refine ⟨(if evaluateCondition (step.condition.getD "true") wf.vars rs o
      then step.onSuccess else step.onFailure), stepResultOf wf o step rs, ?_, ?_⟩
  · unfold runStep
    rw [hfind]
    simp only [htype]
  · simp [stepResultOf, htype]

/-- Claim C10, witness: the theorem applied to a concrete condition step
whose expression throws. -/
theorem condition_step_never_fails_witness :
    demoCondWf.steps.find? (fun s => s.id == "s1") = some demoCondStep ∧
    demoCondStep.stepType = StepType.condition ∧
    (∃ nid r, runStep demoCondWf demoThrowOracle "s1" [] =
      IterStep.next nid
        ([] ++ [{ stepId := demoCondStep.id, stepName := demoCondStep.name, result := r }]) ∧
      r.success = true) :=
  ⟨rfl, rfl, condition_step_never_fails demoCondWf demoThrowOracle "s1" [] demoCondStep rfl rfl⟩
